import Mathlib

/-!
Verification of the agent subsystem of meraki-clu-network-visuals.

Shallow embedding of the pure/state-passing content of:
  src/agents/learning_agent.py    (LearningAgent)
  src/agents/log_analyzer.py      (LogAnalyzer)
  src/agents/repair_agent.py      (RepairAgent)
  src/agents/optimization_agent.py (OptimizationAgent)

Modelling conventions:
  - Python dicts that preserve insertion order are association lists
    List (String × _); in-place update keeps the position, fresh keys are
    appended at the end, exactly as CPython dicts behave.
  - File contents are List Char; the file-system state relevant to a
    function is passed explicitly and returned.
  - datetime.now().isoformat() values are opaque String parameters.
  - Python float division is modelled as exact division in ℚ.
  - Fallible steps (AI backend calls, file writes) are explicit
    parameters describing the outcome of the call, including the raising
    of an exception.  A write `open(path, 'w'); f.write(data)` that
    raises mid-write leaves the file holding a prefix of the data,
    because opening with mode 'w' truncates before writing.
-/

namespace MerakiAgents

/-! ## String helpers shared by the embedded components -/

/-- Python `pat in s` substring containment on character lists. -/
def hasSub : List Char → List Char → Bool
  | [], pat => pat.isEmpty
  | s@(_ :: t), pat => pat.isPrefixOf s || hasSub t pat

/-- Character-wise uppercasing, modelling Python `str.upper` (the log
lines the classifier sees are ASCII; `Char.toUpper` agrees with Python
there). -/
def toUpper (s : List Char) : List Char := s.map Char.toUpper

/-- Character-wise lowercasing, modelling Python `str.lower`. -/
def toLower (s : List Char) : List Char := s.map Char.toLower

/-- The characters of the regex class `\s` / Python whitespace
(ASCII range). -/
def isPySpace (c : Char) : Bool :=
  c = ' ' || c = '\t' || c = '\n' || c = Char.ofNat 11 || c = Char.ofNat 12 || c = '\r'

/-- Python `str.strip()`. -/
def pyStrip (s : List Char) : List Char :=
  ((s.dropWhile isPySpace).reverse.dropWhile isPySpace).reverse

/-! ## Log analyzer (src/agents/log_analyzer.py) -/

/-- `error_indicators` of `LogAnalyzer._is_error` (log_analyzer.py:183). -/
def error_indicators : List String :=
  ["ERROR", "Exception", "Traceback", "Failed", "Error"]

/-- `LogAnalyzer._is_error` (log_analyzer.py:181-184): case-sensitive
containment of any indicator. -/
def is_error (line : List Char) : Bool :=
  error_indicators.any (fun ind => hasSub line ind.data)

/-- `LogAnalyzer._is_warning` (log_analyzer.py:186-188). -/
def is_warning (line : List Char) : Bool :=
  hasSub (toUpper line) ("WARNING".data) || hasSub (toUpper line) ("WARN".data)

/-- A parsed `datetime` value (validated fields). -/
structure Timestamp where
  y : Nat
  m : Nat
  d : Nat
  hh : Nat
  mm : Nat
  ss : Nat
deriving DecidableEq

/-- `datetime` comparison: lexicographic on the six components. -/
def tsLt (a b : Timestamp) : Prop :=
  a.y < b.y ∨ (a.y = b.y ∧ (a.m < b.m ∨ (a.m = b.m ∧ (a.d < b.d ∨ (a.d = b.d ∧
    (a.hh < b.hh ∨ (a.hh = b.hh ∧ (a.mm < b.mm ∨ (a.mm = b.mm ∧ a.ss < b.ss)))))))))

instance (a b : Timestamp) : Decidable (tsLt a b) := by
  unfold tsLt; infer_instance

/-- Gregorian leap year, as validated by `datetime`. -/
def isLeap (y : Nat) : Bool :=
  y % 4 = 0 && (y % 100 ≠ 0 || y % 400 = 0)

/-- Day count of a month, as validated by the `datetime` constructor. -/
def daysInMonth (y m : Nat) : Nat :=
  if m = 2 then (if isLeap y then 29 else 28)
  else if m = 4 ∨ m = 6 ∨ m = 9 ∨ m = 11 then 30
  else 31

def digitVal (c : Char) : Nat := c.toNat - '0'.toNat

/-- Does `s` start with the 19-character skeleton
`\d{4}-\d{2}-\d{2}[\sT]\d{2}:\d{2}:\d{2}` of the two timestamp regexes
of `LogAnalyzer._extract_timestamp` (log_analyzer.py:165-168)? -/
def tsShape19 (s : List Char) : Bool :=
  match s.take 19 with
  | [y1, y2, y3, y4, s1, m1, m2, s2, d1, d2, sep, h1, h2, c1, i1, i2, c2, e1, e2] =>
    y1.isDigit && y2.isDigit && y3.isDigit && y4.isDigit &&
    s1 == '-' && m1.isDigit && m2.isDigit && s2 == '-' &&
    d1.isDigit && d2.isDigit &&
    (isPySpace sep || sep == 'T') &&
    h1.isDigit && h2.isDigit && c1 == ':' && i1.isDigit && i2.isDigit &&
    c2 == ':' && e1.isDigit && e2.isDigit
  | _ => false

/-- Does `s` start with a match of the first (fractional-seconds)
pattern `...[.,]\d+`? -/
def tsShapeFrac (s : List Char) : Bool :=
  tsShape19 s &&
    (match s.drop 19 with
     | p :: q :: _ => (p == '.' || p == ',') && q.isDigit
     | _ => false)

/-- `re.search`: leftmost position whose suffix starts a match of the
requested pattern; returns that suffix. -/
def searchShape (frac : Bool) : List Char → Option (List Char)
  | [] => none
  | s@(_ :: t) =>
    if (if frac then tsShapeFrac s else tsShape19 s) then some s
    else searchShape frac t

/-- `datetime.strptime(ts_str.split('.')[0], '%Y-%m-%d %H:%M:%S')` on the
19-character canonical prefix of a shape match: extracts the six fields
and applies the validation strptime/datetime perform (month 1-12, day
valid for the month, hour ≤ 23, minute/second ≤ 59, year ≥ 1). -/
def parseCanon (s : List Char) : Option Timestamp :=
  match s.take 19 with
  | [y1, y2, y3, y4, _, m1, m2, _, d1, d2, _, h1, h2, _, i1, i2, _, e1, e2] =>
    let y := ((digitVal y1 * 10 + digitVal y2) * 10 + digitVal y3) * 10 + digitVal y4
    let mo := digitVal m1 * 10 + digitVal m2
    let dd := digitVal d1 * 10 + digitVal d2
    let hh := digitVal h1 * 10 + digitVal h2
    let mi := digitVal i1 * 10 + digitVal i2
    let se := digitVal e1 * 10 + digitVal e2
    if 1 ≤ y ∧ 1 ≤ mo ∧ mo ≤ 12 ∧ 1 ≤ dd ∧ dd ≤ daysInMonth y mo ∧
        hh ≤ 23 ∧ mi ≤ 59 ∧ se ≤ 59 then
      some ⟨y, mo, dd, hh, mi, se⟩
    else none
  | _ => none

/-- `LogAnalyzer._extract_timestamp` (log_analyzer.py:162-179): try the
fractional pattern first; on no match or parse failure fall through to
the second pattern; on its failure return `None`. -/
def extract_timestamp (line : List Char) : Option Timestamp :=
  match searchShape true line with
  | some s =>
    match parseCanon s with
    | some t => some t
    | none => (searchShape false line).bind parseCanon
  | none => (searchShape false line).bind parseCanon

/-- The regex forms appearing in `LogAnalyzer._load_error_patterns`
(log_analyzer.py:32-73): plain literals, `a.*b`, and a 4-way literal
alternation, all searched with `re.IGNORECASE`. -/
inductive RePat where
  | lit (s : String)
  | seq (a b : String)
  | alt (xs : List String)

/-- `.*b` matching at the current position: `b` here, or skip one
non-newline character (`.` does not match a newline). -/
def seqAfter (b : List Char) : List Char → Bool
  | [] => b.isEmpty
  | c :: t =>
    b.isPrefixOf (c :: t) || (if c = '\n' then false else seqAfter b t)

/-- `re.search('a.*b', s)`: some position starts `a`, followed after
non-newline filler by `b`. -/
def seqMatch (a b : List Char) : List Char → Bool
  | [] => a.isEmpty && b.isEmpty
  | s@(_ :: t) => (a.isPrefixOf s && seqAfter b (s.drop a.length)) || seqMatch a b t

/-- `re.search(pattern, line, re.IGNORECASE)` for the three pattern
forms, by lowercasing both sides. -/
def reMatchCI (line : List Char) : RePat → Bool
  | .lit p => hasSub (toLower line) (toLower p.data)
  | .seq a b => seqMatch (toLower a.data) (toLower b.data) (toLower line)
  | .alt xs => xs.any (fun x => hasSub (toLower line) (toLower x.data))

/-- `self.error_patterns` (log_analyzer.py:34-73), in dict order. -/
def logErrorPatterns : List (String × List RePat) :=
  [("import_errors", [.lit "ModuleNotFoundError", .lit "ImportError",
      .lit "No module named"]),
   ("api_errors", [.seq "API" "error", .seq "HTTP" "error",
      .seq "Connection" "error", .lit "Timeout",
      .alt ["401", "403", "404", "500"]]),
   ("attribute_errors", [.lit "AttributeError", .lit "has no attribute"]),
   ("type_errors", [.lit "TypeError", .lit "unsupported operand"]),
   ("value_errors", [.lit "ValueError", .seq "invalid" "value"]),
   ("key_errors", [.lit "KeyError", .seq "key" "not found"]),
   ("ssl_errors", [.lit "SSL", .lit "certificate",
      .lit "CERTIFICATE_VERIFY_FAILED"]),
   ("database_errors", [.lit "Database", .lit "SQL", .seq "db" "error"])]

/-- `LogAnalyzer._classify_error` (log_analyzer.py:190-196): first
pattern group with a match wins, else `unknown`. -/
def classify_error (line : List Char) : String :=
  match logErrorPatterns.find? (fun tp => tp.2.any (reMatchCI line)) with
  | some tp => tp.1
  | none => "unknown"

/-- An element of `results['errors']` in `LogAnalyzer._analyze_file`
(log_analyzer.py:140-144); the timestamp is kept as a value rather than
its `isoformat()` rendering. -/
structure LogEntryErr where
  line : List Char
  timestamp : Option Timestamp
  etype : String
deriving DecidableEq

/-- An element of `results['warnings']` (log_analyzer.py:148-151). -/
structure LogEntryWarn where
  line : List Char
  timestamp : Option Timestamp
deriving DecidableEq

/-- The per-file tallies of `LogAnalyzer._analyze_file`. -/
structure FileResults where
  errors : List LogEntryErr
  warnings : List LogEntryWarn
  info_count : Nat
  total_lines : Nat
deriving DecidableEq

/-- The error/warning/info classification of one in-window line
(log_analyzer.py:138-154). -/
def classifyInto (res : FileResults) (line : List Char) (ts : Option Timestamp) :
    FileResults :=
  if is_error line then
    { res with errors := res.errors ++ [⟨pyStrip line, ts, classify_error line⟩] }
  else if is_warning line then
    { res with warnings := res.warnings ++ [⟨pyStrip line, ts⟩] }
  else if hasSub (toUpper line) ("INFO".data) then
    { res with info_count := res.info_count + 1 }
  else res

/-- One iteration of the `for line in f` loop of
`LogAnalyzer._analyze_file` (log_analyzer.py:130-154): count the line,
skip it when its parsed timestamp is strictly older than the cutoff,
otherwise classify it. -/
def processLine (cutoff : Timestamp) (res : FileResults) (line : List Char) :
    FileResults :=
  let res1 := { res with total_lines := res.total_lines + 1 }
  match extract_timestamp line with
  | some t => if tsLt t cutoff then res1 else classifyInto res1 line (some t)
  | none => classifyInto res1 line none

/-- The whole line loop of `_analyze_file` over the lines of a log file. -/
def analyze_lines (cutoff : Timestamp) (lines : List (List Char)) : FileResults :=
  lines.foldl (processLine cutoff) ⟨[], [], 0, 0⟩

/-! ## The bare-except rewrite (repair_agent.py:230-234)

`re.sub(r'except\s*:', 'except Exception:', content)`, embedded as a
left-to-right scan replacing each non-overlapping leftmost match. -/

/-- The literal part of the pattern. -/
def exceptPat : List Char := ['e', 'x', 'c', 'e', 'p', 't']

/-- After the literal: `\s*` then `:` (greedy whitespace run directly
followed by a colon; decidable because `:` is not whitespace). -/
def afterWs : List Char → Option (List Char)
  | [] => none
  | c :: t => if c = ':' then some t else if isPySpace c then afterWs t else none

/-- Match the remaining pattern `ps ++ \s*:` at the head of `s`,
returning the rest of the input after the match. -/
def matchPat : List Char → List Char → Option (List Char)
  | [], s => afterWs s
  | _ :: _, [] => none
  | p :: ps, c :: cs => if c = p then matchPat ps cs else none

/-- Match the full pattern `except\s*:` at the head of the input. -/
def tryBareMatch (s : List Char) : Option (List Char) :=
  matchPat exceptPat s

/-- The replacement text. -/
def replExc : List Char := "except Exception:".data

/-- The left-to-right scan of `re.sub`, fuelled by the input length so
that it is structurally recursive (any fuel ≥ length gives the same
result; `subBE` below fixes fuel = length). -/
def subBEGo : Nat → List Char → List Char
  | 0, s => s
  | fuel + 1, s =>
    match tryBareMatch s with
    | some rest => replExc ++ subBEGo fuel rest
    | none =>
      match s with
      | [] => []
      | c :: cs => c :: subBEGo fuel cs

/-- `re.sub(r'except\s*:', 'except Exception:', content)`. -/
def subBE (s : List Char) : List Char := subBEGo s.length s

/-! ## Repair agent (src/agents/repair_agent.py) -/

/-- A repair-outcome dict; absent keys are `none`.  The
`datetime.now().isoformat()` timestamp key present on every outcome is
dropped (it carries no information about the repair). -/
structure Repair where
  rtype : String
  status : String
  action : Option String := none
  reason : Option String := none
  recommendation : Option String := none
  error : Option String := none
  suggestion : Option String := none
  backup : Option String := none
deriving DecidableEq

/-- Outcome of a `self.agent.analyze(...)` call: an exception, or an
analysis dict with / without a `response` key. -/
inductive AiResult where
  | raise
  | resp (r : Option String)

/-- Outcome of `open(path, 'w'); f.write(data)`: complete, or an
exception raised after `k` characters reached the file (mode 'w' has
already truncated). -/
inductive WriteOutcome where
  | ok
  | raiseAfter (k : Nat) (msg : String)

/-- Body capture of the non-greedy fenced-block regex: shortest prefix
closed by a following `\n`-backtick fence. -/
def splitAtClose : List Char → Option (List Char)
  | [] => none
  | s@(c :: t) =>
    if ("\n```".data).isPrefixOf s then some []
    else (splitAtClose t).map (fun b => c :: b)

/-- A fenced code block starting at the current position:
 three backticks, an optional `python`, a newline, then the body. -/
def codeBlockAt (s : List Char) : Option (List Char) :=
  if ("```".data).isPrefixOf s then
    let r := s.drop 3
    if ("python\n".data).isPrefixOf r then splitAtClose (r.drop 7)
    else
      match r with
      | '\n' :: t => splitAtClose t
      | _ => none
  else none

/-- `re.search` for the fenced-block pattern: leftmost opening fence
with a closing fence wins. -/
def searchCodeBlock : List Char → Option (List Char)
  | [] => none
  | s@(_ :: t) =>
    match codeBlockAt s with
    | some b => some b
    | none => searchCodeBlock t

/-- `RepairAgent._extract_code_from_response` (repair_agent.py:371-382):
a fenced code block if present, else the raw response when it looks like
code, else nothing. -/
def extract_code_from_response (response : List Char) : Option (List Char) :=
  match searchCodeBlock response with
  | some code => some code
  | none =>
    if hasSub response ("def ".data) || hasSub response ("import ".data) then
      some response
    else none

/-- The `failed` dict returned at the bottom of
`RepairAgent._fix_syntax_error` (repair_agent.py:288-293). -/
def failedSyntax : Repair :=
  { rtype := "syntax_error", status := "failed",
    reason := some "Could not generate fix" }

/-- `RepairAgent._fix_bare_except` (repair_agent.py:224-253) acting on
the target file's content; an exception from the write escapes to the
caller (`Except.error`), leaving whatever prefix the write flushed. -/
def fix_bare_except (file_path : String) (content : List Char)
    (backup_path : String) (w : WriteOutcome) : List Char × Except String Repair :=
  let fixed_content := subBE content
  if fixed_content ≠ content then
    match w with
    | .ok =>
      (fixed_content,
       .ok { rtype := "bare_except", status := "success",
             action := some ("Fixed bare except in " ++ file_path),
             backup := some backup_path })
    | .raiseAfter k msg => (fixed_content.take k, .error msg)
  else
    (content,
     .ok { rtype := "bare_except", status := "skipped",
           reason := some "No changes needed" })

/-- `RepairAgent._fix_syntax_error` (repair_agent.py:255-293).  Its own
`try/except` swallows every exception -- including one raised by the
file write -- and falls through to the `failed` return, so this function
never raises and never restores. -/
def fix_syntax_error (file_path : String) (content : List Char) (ai : AiResult)
    (w : WriteOutcome) (backup_path : String) : List Char × Repair :=
  match ai with
  | .raise => (content, failedSyntax)
  | .resp none => (content, failedSyntax)
  | .resp (some r) =>
    match extract_code_from_response r.data with
    | none => (content, failedSyntax)
    | some fixed_code =>
      match w with
      | .ok =>
        (fixed_code,
         { rtype := "syntax_error", status := "success",
           action := some ("Fixed syntax error in " ++ file_path),
           backup := some backup_path })
      | .raiseAfter k _ => (fixed_code.take k, failedSyntax)

/-- `RepairAgent._repair_code_issue` (repair_agent.py:186-222): backup,
dispatch, and restore-from-backup when the dispatched fix raises. -/
def repair_code_issue (issue_type : String) (file_path : String)
    (file_exists : Bool) (content : List Char) (backup_path : String)
    (ai : AiResult) (w : WriteOutcome) : List Char × Repair :=
  if file_exists = false then
    (content, { rtype := issue_type, status := "skipped",
                reason := some "File not found" })
  else
    let backup := content
    if issue_type = "bare_except" then
      match fix_bare_except file_path content backup_path w with
      | (c, .ok r) => (c, r)
      | (_, .error msg) =>
        (backup, { rtype := issue_type, status := "failed", error := some msg })
    else if issue_type = "syntax_error" then
      fix_syntax_error file_path content ai w backup_path
    else
      (content, { rtype := issue_type, status := "skipped",
                  reason := some ("No auto-fix available for " ++ issue_type) })

/-- A log-derived error dict as consumed by `_repair_log_issues`:
`error.get('type', 'unknown')` and `error.get('line', '')`. -/
structure LogError where
  etype : Option String
  eline : Option String
deriving DecidableEq

def isQuote (c : Char) : Bool := c = Char.ofNat 39 || c = '"'

/-- A match of `No module named ['\"]([^'\"]+)['\"]` at the current
position: the literal, an opening quote, a non-empty greedy run of
non-quote characters, and a closing quote. -/
def moduleNameAt (s : List Char) : Option (List Char) :=
  if ("No module named ".data).isPrefixOf s then
    match s.drop 16 with
    | q :: t =>
      if isQuote q then
        let body := t.takeWhile (fun c => !(isQuote c))
        if body ≠ [] ∧ (t.drop body.length) ≠ [] then some body else none
      else none
    | [] => none
  else none

/-- `re.search(r'No module named [\'\"]([^\'\"]+)[\'\"]', error_line)`
(repair_agent.py:117): leftmost match wins. -/
def search_module_name : List Char → Option (List Char)
  | [] => none
  | s@(_ :: t) =>
    match moduleNameAt s with
    | some m => some m
    | none => search_module_name t

/-- The `package_map` of `_add_to_requirements` (repair_agent.py:337-343). -/
def packageName (module_name : List Char) : List Char :=
  if module_name = ("PIL".data) then ("Pillow".data)
  else if module_name = ("yaml".data) then ("PyYAML".data)
  else if module_name = ("dotenv".data) then ("python-dotenv".data)
  else module_name

/-- `RepairAgent._add_to_requirements` (repair_agent.py:334-355) acting
on the manifest state (`none` = requirements.txt does not exist, in
which case the function silently does nothing). -/
def add_to_requirements (reqs : Option (List Char)) (module_name : List Char) :
    Option (List Char) :=
  let package := packageName module_name
  match reqs with
  | none => none
  | some content =>
    if hasSub (toLower content) (toLower package) then some content
    else some (content ++ ('\n' :: package) ++ ['\n'])

/-- `RepairAgent._repair_import_error` (repair_agent.py:112-143).  The
embedded `_add_to_requirements` raises nothing (in particular a missing
manifest is a silent no-op), so the `except` arm of the source is
unreachable here. -/
def repair_import_error (reqs : Option (List Char)) (e : LogError) :
    Option (List Char) × Repair :=
  match search_module_name ((e.eline.getD "").data) with
  | some m =>
    (add_to_requirements reqs m,
     { rtype := "import_error", status := "success",
       action := some ("Added " ++ String.mk m ++ " to requirements.txt") })
  | none =>
    (reqs, { rtype := "import_error", status := "skipped",
             reason := some "Could not extract module name" })

/-- `RepairAgent._repair_api_error` (repair_agent.py:145-154): a
constant skip outcome, touching nothing. -/
def repair_api_error : Repair :=
  { rtype := "api_error", status := "skipped",
    reason := some "API errors require manual verification",
    recommendation := some "Check API key and network connectivity" }

/-- `RepairAgent._repair_attribute_error` (repair_agent.py:156-184):
AI-suggested fix surfaced as `suggested`, else skipped; no file access. -/
def repair_attribute_error (ai : AiResult) : Repair :=
  match ai with
  | .resp (some r) =>
    { rtype := "attribute_error", status := "suggested", suggestion := some r }
  | .resp none =>
    { rtype := "attribute_error", status := "skipped",
      reason := some "Could not generate fix" }
  | .raise =>
    { rtype := "attribute_error", status := "skipped",
      reason := some "Could not generate fix" }

/-- The dispatch body of the `for error in ...` loop of
`RepairAgent._repair_log_issues` (repair_agent.py:86-97). -/
def repairLogStep (ai : LogError → AiResult)
    (acc : Option (List Char) × List Repair) (e : LogError) :
    Option (List Char) × List Repair :=
  let t := e.etype.getD "unknown"
  if t = "import_errors" then
    let (r2, rep) := repair_import_error acc.1 e
    (r2, acc.2 ++ [rep])
  else if t = "api_errors" then
    (acc.1, acc.2 ++ [repair_api_error])
  else if t = "attribute_errors" then
    (acc.1, acc.2 ++ [repair_attribute_error (ai e)])
  else acc

/-- `RepairAgent._repair_log_issues` (repair_agent.py:82-99): at most
the first five errors are dispatched. -/
def repair_log_issues (reqs : Option (List Char)) (errors : List LogError)
    (ai : LogError → AiResult) : Option (List Char) × List Repair :=
  (errors.take 5).foldl (repairLogStep ai) (reqs, [])

/-! ## Learning agent (src/agents/learning_agent.py) -/

/-- An entry of `self.patterns['fix_patterns']` (learning_agent.py:85-90). -/
structure FixPattern where
  error_type : String
  fix_action : Option String
  success_count : Nat
  failure_count : Nat
deriving DecidableEq

/-- An entry of `self.patterns['error_patterns']` (learning_agent.py:67-72). -/
structure ErrorPattern where
  count : Nat
  first_seen : String
  last_seen : String
  messages : List String
deriving DecidableEq

/-- The in-memory knowledge base `self.patterns` (the two parts the
learning claims are about; optimization_patterns / user_preferences /
learned_rules are never read by the embedded operations). -/
structure Knowledge where
  error_patterns : List (String × ErrorPattern)
  fix_patterns : List (String × FixPattern)
deriving DecidableEq

/-- An error dict as consumed by the learning agent: `error.get('type',
'unknown')` and `error.get('message', '')`. -/
structure ErrInfo where
  etype : Option String
  message : Option String
deriving DecidableEq

/-- A fix dict as consumed by `learn_from_error`: `fix.get('action')`,
`fix.get('status')`. -/
structure FixInfo where
  action : Option String
  status : Option String
deriving DecidableEq

/-- The dict returned by `get_suggested_fix` (learning_agent.py:147-151). -/
structure SuggestedFix where
  action : Option String
  confidence : ℚ
  source : String
deriving DecidableEq

/-- Python `d[k] = init if k not in d; then mutate d[k] in place`:
an absent key is appended at the end (CPython dict insertion order),
a present key is updated in place. -/
def upsert (k : String) (init : α) (f : α → α) : List (String × α) → List (String × α)
  | [] => [(k, f init)]
  | (k', v) :: t => if k' = k then (k', f v) :: t else (k', v) :: upsert k init f t

/-- `LearningAgent.learn_from_error` (learning_agent.py:54-98); `now`
stands for `datetime.now().isoformat()`.  The trailing `_save_knowledge`
is I/O on the unchanged in-memory state and is dropped. -/
def learn_from_error (now : String) (error : ErrInfo) (fix : Option FixInfo)
    (kb : Knowledge) : Knowledge :=
  let error_type := error.etype.getD ("unknown")
  let error_message := error.message.getD ("")
  let bumpError : ErrorPattern → ErrorPattern := fun p =>
    { p with
      count := p.count + 1
      last_seen := now
      messages :=
        if error_message ≠ "" ∧ error_message ∉ p.messages then
          p.messages ++ [error_message]
        else p.messages }
  let kb1 : Knowledge :=
    { kb with error_patterns :=
        (upsert error_type ⟨0, now, now, []⟩ bumpError kb.error_patterns) }
  match fix with
  | none => kb1
  | some fx =>
    let fix_key := error_type ++ "_" ++ fx.action.getD ("unknown")
    let bumpFix : FixPattern → FixPattern := fun p =>
      if fx.status = some "success" then
        { p with success_count := p.success_count + 1 }
      else
        { p with failure_count := p.failure_count + 1 }
    { kb1 with fix_patterns :=
        (upsert fix_key ⟨error_type, fx.action, 0, 0⟩ bumpFix kb1.fix_patterns) }

/-- `total = fix_pattern['success_count'] + fix_pattern['failure_count']`
(learning_agent.py:143). -/
def totalAttempts (p : FixPattern) : Nat :=
  p.success_count + p.failure_count

/-- `success_rate = fix_pattern['success_count'] / total`
(learning_agent.py:145), float division modelled in ℚ. -/
def successRate (p : FixPattern) : ℚ :=
  (p.success_count : ℚ) / ((totalAttempts p : Nat) : ℚ)

/-- The `for fix_key, fix_pattern in ... .items()` loop of
`get_suggested_fix` (learning_agent.py:140-151): first pattern for the
error type whose success rate clears the 0.7 threshold wins. -/
def suggest_go (et : String) : List (String × FixPattern) → Option SuggestedFix
  | [] => none
  | (_, p) :: t =>
    if p.error_type = et then
      if 0 < totalAttempts p ∧ 7/10 < successRate p then
        some ⟨p.fix_action, successRate p, "learned_pattern"⟩
      else suggest_go et t
    else suggest_go et t

/-- `LearningAgent.get_suggested_fix` (learning_agent.py:127-153). -/
def get_suggested_fix (kb : Knowledge) (error : ErrInfo) : Option SuggestedFix :=
  suggest_go (error.etype.getD ("unknown")) kb.fix_patterns

/-- A pattern entry that `get_suggested_fix` would trust. -/
def Trusted (et : String) (kp : String × FixPattern) : Prop :=
  kp.2.error_type = et ∧ 0 < totalAttempts kp.2 ∧ 7/10 < successRate kp.2

instance (et : String) (kp : String × FixPattern) : Decidable (Trusted et kp) := by
  unfold Trusted; infer_instance

/-! ## Optimization agent (src/agents/optimization_agent.py) -/

/-- An entry of the `improvements` list built by
`OptimizationAgent._calculate_improvements` (optimization_agent.py:193-198).
The source formats `improvement` as a one-decimal percentage string for
display; the exact rational value is kept here. -/
structure Improvement where
  metric : String
  improvement : ℚ
  before_val : Nat
  after_val : Nat
deriving DecidableEq

/-- The fixed metric list iterated by `_calculate_improvements`
(optimization_agent.py:187). -/
def improvementMetrics : List String :=
  ["total_issues", "high_severity", "optimization_opportunities"]

/-- `before.get(metric, 0)` on a metric dict. -/
def getMetric (m : List (String × Nat)) (k : String) : Nat :=
  (m.lookup k).getD 0

/-- `OptimizationAgent._calculate_improvements` (optimization_agent.py:183-200):
for each metric of the fixed list, appends an entry exactly when the
after-value is strictly below the before-value. -/
def calculate_improvements (before after : List (String × Nat)) : List Improvement :=
  improvementMetrics.filterMap (fun metric =>
    let before_val := getMetric before metric
    let after_val := getMetric after metric
    if after_val < before_val then
      some ⟨metric, ((before_val : ℚ) - (after_val : ℚ)) / (before_val : ℚ) * 100,
            before_val, after_val⟩
    else none)

/-! ## Theorems -/

lemma hasSub_iff (s pat : List Char) :
    hasSub s pat = true ↔ ∃ p q, s = p ++ (pat ++ q) := by
  induction s with
  | nil =>
    constructor
    · intro h
      have : pat = [] := by
        cases pat with
        | nil => rfl
        | cons c t => simp [hasSub, List.isEmpty] at h
      exact ⟨[], [], by simp [this]⟩
    · rintro ⟨p, q, hpq⟩
      have hp : p = [] ∧ pat ++ q = [] := List.append_eq_nil.mp hpq.symm
      have : pat = [] := (List.append_eq_nil.mp hp.2).1
      simp [hasSub, this, List.isEmpty]
  | cons c t ih =>
    constructor
    · intro h
      rcases Bool.or_eq_true_iff.mp h with h1 | h2
      · obtain ⟨q, hq⟩ := List.isPrefixOf_iff_prefix.mp h1
        exact ⟨[], q, by simp [← hq]⟩
      · obtain ⟨p, q, hpq⟩ := ih.mp h2
        exact ⟨c :: p, q, by simp [hpq]⟩
    · rintro ⟨p, q, hpq⟩
      cases p with
      | nil =>
        have hpre : pat.isPrefixOf (c :: t) = true :=
          List.isPrefixOf_iff_prefix.mpr ⟨q, by simpa using hpq.symm⟩
        simp [hasSub, hpre]
      | cons c₂ p₂ =>
        have hc : c = c₂ ∧ t = p₂ ++ (pat ++ q) := by
          simpa using hpq
        have h2 : hasSub t pat = true := ih.mpr ⟨p₂, q, hc.2⟩
        simp [hasSub, h2]

lemma suggest_go_eq_none (et : String) (l : List (String × FixPattern))
    (h : ∀ kp ∈ l, kp.2.error_type = et →
      totalAttempts kp.2 = 0 ∨ successRate kp.2 ≤ 7/10) :
    suggest_go et l = none := by
  induction l with
  | nil => rfl
  | cons kp t ih =>
    obtain ⟨k, p⟩ := kp
    simp only [suggest_go]
    split
    · rename_i hty
      have hp : totalAttempts p = 0 ∨ successRate p ≤ 7/10 :=
        h (k, p) (List.mem_cons_self _ _) hty
      rw [if_neg]
      · exact ih (fun q hq => h q (List.mem_cons_of_mem _ hq))
      · rintro ⟨h1, h2⟩
        rcases hp with h0 | hle
        · omega
        · exact absurd h2 (not_lt.mpr hle)
    · exact ih (fun q hq => h q (List.mem_cons_of_mem _ hq))

lemma suggest_go_eq_some (et : String) (l : List (String × FixPattern))
    (kp : String × FixPattern) (hmem : kp ∈ l) (ht : Trusted et kp) :
    ∃ q ∈ l, Trusted et q ∧
      suggest_go et l = some ⟨q.2.fix_action, successRate q.2, "learned_pattern"⟩ := by
  induction l with
  | nil => cases hmem
  | cons hd t ih =>
    obtain ⟨k, p⟩ := hd
    by_cases hq : Trusted et (k, p)
    · refine ⟨(k, p), List.mem_cons_self _ _, hq, ?_⟩
      have h1 : p.error_type = et := hq.1
      have h2 : 0 < totalAttempts p := hq.2.1
      have h3 : 7/10 < successRate p := hq.2.2
      simp only [suggest_go]
      rw [if_pos h1, if_pos (And.intro h2 h3)]
    · have hmem' : kp ∈ t := by
        rcases List.mem_cons.mp hmem with h | h
        · exact absurd (h ▸ ht) hq
        · exact h
      obtain ⟨q, hqmem, hqt, hqeq⟩ := ih hmem'
      refine ⟨q, List.mem_cons_of_mem _ hqmem, hqt, ?_⟩
      rw [← hqeq]
      simp only [suggest_go]
      split
      · rename_i hty
        rw [if_neg]
        rintro ⟨ha, hb⟩
        exact hq ⟨hty, ha, hb⟩
      · rfl

/-- C2: for every error and every knowledge-store state,
`get_suggested_fix` returns `None` whenever every `FixPattern` matching
the error's type has success rate ≤ 0.70 or zero recorded attempts, and
returns a fix -- some trusted matching pattern's action with confidence
equal to that pattern's success rate -- whenever some matching
`FixPattern` with recorded attempts has success rate > 0.70. -/
theorem C2_suggested_fix_threshold (kb : Knowledge) (e : ErrInfo) :
    ((∀ kp ∈ kb.fix_patterns, kp.2.error_type = e.etype.getD ("unknown") →
        totalAttempts kp.2 = 0 ∨ successRate kp.2 ≤ 7/10) →
      get_suggested_fix kb e = none)
  ∧ (∀ kp ∈ kb.fix_patterns, kp.2.error_type = e.etype.getD ("unknown") →
      0 < totalAttempts kp.2 → 7/10 < successRate kp.2 →
      ∃ q ∈ kb.fix_patterns, q.2.error_type = e.etype.getD ("unknown") ∧
        0 < totalAttempts q.2 ∧ 7/10 < successRate q.2 ∧
        get_suggested_fix kb e =
          some ⟨q.2.fix_action, successRate q.2, "learned_pattern"⟩) := by
  constructor
  · intro h
    exact suggest_go_eq_none _ _ h
  · intro kp hmem h1 h2 h3
    obtain ⟨q, hqmem, ⟨hq1, hq2, hq3⟩, hqeq⟩ :=
      suggest_go_eq_some (e.etype.getD ("unknown")) kb.fix_patterns kp hmem ⟨h1, h2, h3⟩
    exact ⟨q, hqmem, hq1, hq2, hq3, hqeq⟩

/-- Witness for C2 at concrete inputs: a store whose only matching
pattern has rate 1/2 yields no suggestion; a store with a matching
pattern at rate 4/5 yields one. -/
theorem C2_suggested_fix_threshold_witness :
    get_suggested_fix ⟨[], [("X_A", ⟨"X", some "A", 1, 1⟩)]⟩ ⟨some "X", none⟩ = none
  ∧ (get_suggested_fix ⟨[], [("X_B", ⟨"X", some "B", 4, 1⟩)]⟩ ⟨some "X", none⟩).isSome
      = true := by
  constructor
  · exact (C2_suggested_fix_threshold ⟨[], [("X_A", ⟨"X", some "A", 1, 1⟩)]⟩
      ⟨some "X", none⟩).1 (by
        intro kp hkp hty
        simp only [List.mem_singleton] at hkp
        subst hkp
        right
        norm_num [successRate, totalAttempts])
  · obtain ⟨q, _, _, _, _, hq⟩ :=
      (C2_suggested_fix_threshold ⟨[], [("X_B", ⟨"X", some "B", 4, 1⟩)]⟩
        ⟨some "X", none⟩).2 ("X_B", ⟨"X", some "B", 4, 1⟩)
        (List.mem_singleton.mpr rfl) rfl
        (by norm_num [totalAttempts])
        (by norm_num [successRate, totalAttempts])
    rw [hq]; rfl

lemma suggest_go_eq_find (et : String) (l : List (String × FixPattern)) :
    suggest_go et l =
      (l.find? (fun kp => decide (Trusted et kp))).map
        (fun kp => (⟨kp.2.fix_action, successRate kp.2, "learned_pattern"⟩ : SuggestedFix)) := by
  induction l with
  | nil => rfl
  | cons hd t ih =>
    obtain ⟨k, p⟩ := hd
    by_cases hq : Trusted et (k, p)
    · have h1 : p.error_type = et := hq.1
      have h2 : 0 < totalAttempts p := hq.2.1
      have h3 : 7/10 < successRate p := hq.2.2
      rw [List.find?_cons_of_pos _ (by simpa using hq)]
      simp only [suggest_go]
      rw [if_pos h1, if_pos (And.intro h2 h3)]
      rfl
    · rw [List.find?_cons_of_neg _ (by simpa using hq)]
      simp only [suggest_go]
      rw [← ih]
      by_cases hty : p.error_type = et
      · rw [if_pos hty, if_neg]
        rintro ⟨ha, hb⟩
        exact hq ⟨hty, ha, hb⟩
      · rw [if_neg hty]

/-- C10: `get_suggested_fix` returns the first trusted pattern in the
knowledge store's insertion/iteration order, not the one with the
highest success rate; in particular, on a store holding an earlier
pattern at rate 0.75 and a later pattern for the same error type at
rate 0.95, the earlier pattern's action is returned with confidence
0.75. -/
theorem C10_first_trusted_pattern_wins :
    (∀ (kb : Knowledge) (e : ErrInfo),
      get_suggested_fix kb e =
        (kb.fix_patterns.find?
            (fun kp => decide (Trusted (e.etype.getD ("unknown")) kp))).map
          (fun kp =>
            (⟨kp.2.fix_action, successRate kp.2, "learned_pattern"⟩ : SuggestedFix)))
  ∧ get_suggested_fix
      ⟨[], [("X_A", ⟨"X", some "A", 3, 1⟩), ("X_B", ⟨"X", some "B", 19, 1⟩)]⟩
      ⟨some "X", none⟩ = some ⟨some "A", 3/4, "learned_pattern"⟩ := by
  constructor
  · intro kb e
    exact suggest_go_eq_find _ _
  · simp only [get_suggested_fix, suggest_go, Option.getD]
    norm_num [successRate, totalAttempts]

/-- C4: starting from an empty store, 8 calls of
`learn_from_error({type: X}, {action: Y, status: success})` followed by
2 calls with `status: failed` leave the (X, Y) `FixPattern` at
success_count 8 and failure_count 2, and `get_suggested_fix({type: X})`
then returns action Y with confidence 0.80. -/
theorem C4_learning_scenario (now : String) :
    ((List.replicate 8 "success" ++ List.replicate 2 "failed").foldl
        (fun k st => learn_from_error now ⟨some "X", none⟩ (some ⟨some "Y", some st⟩) k)
        ⟨[], []⟩).fix_patterns = [("X_Y", ⟨"X", some "Y", 8, 2⟩)]
  ∧ get_suggested_fix
      ((List.replicate 8 "success" ++ List.replicate 2 "failed").foldl
        (fun k st => learn_from_error now ⟨some "X", none⟩ (some ⟨some "Y", some st⟩) k)
        ⟨[], []⟩)
      ⟨some "X", none⟩ = some ⟨some "Y", 4/5, "learned_pattern"⟩ := by
  refine ⟨rfl, ?_⟩
  simp only [get_suggested_fix]
  rw [show ((List.replicate 8 "success" ++ List.replicate 2 "failed").foldl
      (fun k st => learn_from_error now ⟨some "X", none⟩ (some ⟨some "Y", some st⟩) k)
      (⟨[], []⟩ : Knowledge)).fix_patterns
    = [("X_Y", ⟨"X", some "Y", 8, 2⟩)] from rfl]
  simp only [suggest_go, Option.getD]
  norm_num [successRate, totalAttempts]

/-- C8: the improvements list has an entry for a metric iff that
(tracked) metric strictly decreased, with improvement percentage
((before - after) / before) * 100; regressed or unchanged metrics are
omitted, and no entry is ever ≤ 0. -/
theorem C8_improvements_strict_decrease (before after : List (String × Nat))
    (m : String) :
    ((∃ e ∈ calculate_improvements before after, e.metric = m) ↔
      (m ∈ improvementMetrics ∧ getMetric after m < getMetric before m))
  ∧ (∀ e ∈ calculate_improvements before after,
      e.before_val = getMetric before e.metric ∧
      e.after_val = getMetric after e.metric ∧
      e.after_val < e.before_val ∧
      e.improvement = ((e.before_val : ℚ) - (e.after_val : ℚ)) / (e.before_val : ℚ) * 100 ∧
      0 < e.improvement) := by
  constructor
  · constructor
    · rintro ⟨e, he, rfl⟩
      simp only [calculate_improvements, List.mem_filterMap] at he
      obtain ⟨k, hk, hke⟩ := he
      by_cases hlt : getMetric after k < getMetric before k
      · rw [if_pos hlt] at hke
        cases hke
        exact ⟨hk, hlt⟩
      · rw [if_neg hlt] at hke
        cases hke
    · rintro ⟨hm, hlt⟩
      refine ⟨⟨m, ((getMetric before m : ℚ) - (getMetric after m : ℚ)) /
        (getMetric before m : ℚ) * 100, getMetric before m, getMetric after m⟩, ?_, rfl⟩
      simp only [calculate_improvements, List.mem_filterMap]
      exact ⟨m, hm, by rw [if_pos hlt]⟩
  · intro e he
    simp only [calculate_improvements, List.mem_filterMap] at he
    obtain ⟨k, hk, hke⟩ := he
    by_cases hlt : getMetric after k < getMetric before k
    · rw [if_pos hlt] at hke
      cases hke
      have hb : (0 : ℚ) < (getMetric before k : ℚ) := by
        exact_mod_cast Nat.lt_of_le_of_lt (Nat.zero_le _) hlt
      have hd : (0 : ℚ) < (getMetric before k : ℚ) - (getMetric after k : ℚ) := by
        have : (getMetric after k : ℚ) < (getMetric before k : ℚ) := by exact_mod_cast hlt
        linarith
      refine ⟨rfl, rfl, hlt, rfl, ?_⟩
      positivity
    · rw [if_neg hlt] at hke
      cases hke

/-- Witness for C8 at a concrete input: total_issues 4 → 2 yields an
entry with improvement 50, and its improvement is positive. -/
theorem C8_improvements_strict_decrease_witness :
    (("total_issues" ∈ improvementMetrics ∧
        getMetric [("total_issues", 2)] "total_issues" <
          getMetric [("total_issues", 4)] "total_issues")) ∧
    ∀ e ∈ calculate_improvements [("total_issues", 4)] [("total_issues", 2)],
      0 < e.improvement := by
  constructor
  · exact (C8_improvements_strict_decrease [("total_issues", 4)] [("total_issues", 2)]
      ("total_issues")).1.mp
      ⟨⟨"total_issues", 50, 4, 2⟩, by norm_num [calculate_improvements,
        improvementMetrics, getMetric, List.lookup], rfl⟩
  · intro e he
    exact ((C8_improvements_strict_decrease [("total_issues", 4)] [("total_issues", 2)]
      ("total_issues")).2 e he).2.2.2.2

/-- C6 counterexample: the claim's marker set {ERROR, Exception,
Traceback, Failed} is incomplete — the classifier also uses the marker
`Error`, so the line `"Error"` is tagged as an error although it
contains none of the four claimed markers. -/
theorem C6_counterexample_extra_marker :
    is_error ("Error".data) = true
  ∧ (hasSub ("Error".data) ("ERROR".data) || hasSub ("Error".data) ("Exception".data)
      || hasSub ("Error".data) ("Traceback".data)
      || hasSub ("Error".data) ("Failed".data)) = false := by
  constructor
  · decide
  · decide

/-- C6 amended: a line is tagged as an error iff it contains one of the
FIVE case-sensitive markers ERROR, Exception, Traceback, Failed, Error;
a non-error line is tagged as a warning iff its uppercasing contains
WARNING or WARN; a remaining line bumps the info count iff its
uppercasing contains INFO. -/
theorem C6_classifier_amended (line : List Char) :
    (is_error line = true ↔
      ∃ ind ∈ error_indicators, ∃ p q, line = p ++ (ind.data ++ q))
  ∧ (is_error line = false →
      (is_warning line = true ↔
        (∃ p q, toUpper line = p ++ ("WARNING".data ++ q)) ∨
        (∃ p q, toUpper line = p ++ ("WARN".data ++ q))))
  ∧ (∀ res ts, (classifyInto res line ts).info_count =
      res.info_count +
        (if is_error line = false ∧ is_warning line = false ∧
            hasSub (toUpper line) ("INFO".data) = true then 1 else 0)) := by
  refine ⟨?_, ?_, ?_⟩
  · constructor
    · intro h
      obtain ⟨ind, hmem, hsub⟩ := List.any_eq_true.mp h
      exact ⟨ind, hmem, (hasSub_iff _ _).mp hsub⟩
    · rintro ⟨ind, hmem, p, q, hpq⟩
      exact List.any_eq_true.mpr ⟨ind, hmem, (hasSub_iff _ _).mpr ⟨p, q, hpq⟩⟩
  · intro _
    constructor
    · intro h
      rcases Bool.or_eq_true_iff.mp h with h1 | h2
      · exact Or.inl ((hasSub_iff _ _).mp h1)
      · exact Or.inr ((hasSub_iff _ _).mp h2)
    · rintro (⟨p, q, hpq⟩ | ⟨p, q, hpq⟩)
      · exact Bool.or_eq_true_iff.mpr (Or.inl ((hasSub_iff _ _).mpr ⟨p, q, hpq⟩))
      · exact Bool.or_eq_true_iff.mpr (Or.inr ((hasSub_iff _ _).mpr ⟨p, q, hpq⟩))
  · intro res ts
    unfold classifyInto
    by_cases he : is_error line
    · simp [he]
    · by_cases hw : is_warning line
      · simp [he, hw]
      · by_cases hi : hasSub (toUpper line) ("INFO".data)
        · simp [he, hw, hi]
        · simp [he, hw, hi]

/-- Witness for C6: `"2024 warn: disk"` is a warning via the WARN
decomposition, and an info line bumps the info count by one. -/
theorem C6_classifier_amended_witness :
    is_warning ("2024 warn: disk".data) = true
  ∧ (classifyInto ⟨[], [], 0, 0⟩ ("info: ok".data) none).info_count = 1 := by
  constructor
  · exact ((C6_classifier_amended ("2024 warn: disk".data)).2.1 (by decide)).mpr
      (Or.inr ⟨"2024 ".data, ": DISK".data, by decide⟩)
  · rw [(C6_classifier_amended ("info: ok".data)).2.2 ⟨[], [], 0, 0⟩ none]
    decide

/-- C7: a line whose timestamp cannot be parsed by either canonical
format is treated as inside the window and classified normally (the
cutoff plays no role), while a line whose parsed timestamp is strictly
older than the cutoff only bumps the line count and contributes to no
error, warning, or info tally. -/
theorem C7_timestamp_window (line : List Char) (cutoff : Timestamp)
    (res : FileResults) :
    (extract_timestamp line = none →
      processLine cutoff res line =
        classifyInto { res with total_lines := res.total_lines + 1 } line none)
  ∧ (∀ t, extract_timestamp line = some t → tsLt t cutoff →
      processLine cutoff res line = { res with total_lines := res.total_lines + 1 }) := by
  constructor
  · intro h
    unfold processLine
    rw [h]
  · intro t h hlt
    unfold processLine
    rw [h]
    simp only [if_pos hlt]

/-- Witness for C7: a timestampless line is classified (cutoff
irrelevant), and a 2020 line against a 2026 cutoff only bumps the line
count. -/
theorem C7_timestamp_window_witness :
    processLine ⟨2026, 1, 1, 0, 0, 0⟩ ⟨[], [], 0, 0⟩ ("no ts ERROR".data) =
      classifyInto ⟨[], [], 0, 1⟩ ("no ts ERROR".data) none
  ∧ processLine ⟨2026, 1, 1, 0, 0, 0⟩ ⟨[], [], 0, 0⟩
      ("2020-01-01 00:00:00 ERROR x".data) = ⟨[], [], 0, 1⟩ := by
  constructor
  · exact (C7_timestamp_window ("no ts ERROR".data) ⟨2026, 1, 1, 0, 0, 0⟩
      ⟨[], [], 0, 0⟩).1 (by decide)
  · exact (C7_timestamp_window ("2020-01-01 00:00:00 ERROR x".data)
      ⟨2026, 1, 1, 0, 0, 0⟩ ⟨[], [], 0, 0⟩).2 ⟨2020, 1, 1, 0, 0, 0⟩ (by decide)
      (by decide)

/-- Supporting fact for the C1 analysis: on the bare_except path the
repair agent's restore invariant does hold -- a write failure propagates
to `_repair_code_issue`, which restores the backup and reports
`failed`. -/
theorem bare_except_restore_on_failure (fp bp : String) (content : List Char)
    (ai : AiResult) (k : Nat) (msg : String)
    (h : subBE content ≠ content) :
    repair_code_issue ("bare_except") fp true content bp ai (.raiseAfter k msg)
      = (content,
         { rtype := "bare_except", status := "failed", error := some msg }) := by
  simp only [repair_code_issue, fix_bare_except]
  rw [if_pos h]
  rfl

/-- C1 is a code bug on the syntax_error path: `_fix_syntax_error`'s own
`try/except` swallows an exception raised by the whole-file write, so
`_repair_code_issue` never restores the backup -- the outcome is
`failed` but the file is left truncated (here: empty) instead of
byte-identical to its pre-call content. -/
theorem C1_syntax_error_restore_code_bug :
    repair_code_issue ("syntax_error") ("f.py") true ("x = (\n".data) ("backup_1")
        (.resp (some "```python\nx = 1\n```")) (.raiseAfter 0 "disk full")
      = ([], failedSyntax)
  ∧ failedSyntax.status = "failed"
  ∧ ([] : List Char) ≠ ("x = (\n".data) := by
  refine ⟨by decide, rfl, by decide⟩

lemma repairLogStep_skip (ai : LogError → AiResult)
    (acc : Option (List Char) × List Repair) (e : LogError)
    (h1 : e.etype.getD "unknown" ≠ "import_errors")
    (h2 : e.etype.getD "unknown" ≠ "api_errors")
    (h3 : e.etype.getD "unknown" ≠ "attribute_errors") :
    repairLogStep ai acc e = acc := by
  simp only [repairLogStep]
  rw [if_neg h1, if_neg h2, if_neg h3]

lemma repairLogStep_fst (ai : LogError → AiResult)
    (acc : Option (List Char) × List Repair) (e : LogError)
    (h1 : e.etype.getD "unknown" ≠ "import_errors") :
    (repairLogStep ai acc e).1 = acc.1 := by
  simp only [repairLogStep]
  rw [if_neg h1]
  by_cases h2 : e.etype.getD "unknown" = "api_errors"
  · rw [if_pos h2]
  · rw [if_neg h2]
    by_cases h3 : e.etype.getD "unknown" = "attribute_errors"
    · rw [if_pos h3]
    · rw [if_neg h3]

lemma foldl_repairLogStep_skip (ai : LogError → AiResult) (l : List LogError)
    (h : ∀ e ∈ l, e.etype.getD "unknown" ≠ "import_errors" ∧
      e.etype.getD "unknown" ≠ "api_errors" ∧
      e.etype.getD "unknown" ≠ "attribute_errors") :
    ∀ acc, l.foldl (repairLogStep ai) acc = acc := by
  induction l with
  | nil => intro acc; rfl
  | cons e t ih =>
    intro acc
    obtain ⟨h1, h2, h3⟩ := h e (List.mem_cons_self _ _)
    rw [List.foldl_cons, repairLogStep_skip ai acc e h1 h2 h3]
    exact ih (fun x hx => h x (List.mem_cons_of_mem _ hx)) acc

lemma foldl_repairLogStep_fst (ai : LogError → AiResult) (l : List LogError)
    (h : ∀ e ∈ l, e.etype.getD "unknown" ≠ "import_errors") :
    ∀ acc, (l.foldl (repairLogStep ai) acc).1 = acc.1 := by
  induction l with
  | nil => intro acc; rfl
  | cons e t ih =>
    intro acc
    rw [List.foldl_cons]
    rw [ih (fun x hx => h x (List.mem_cons_of_mem _ hx))]
    exact repairLogStep_fst ai acc e (h e (List.mem_cons_self _ _))

/-- C3: a log-derived error of type `api_errors` yields exactly the
constant skip outcome (with its manual-verification recommendation) and
mutates nothing, and more generally errors whose type lies outside the
repairable set {import_errors, api_errors, attribute_errors} generate
no repair and leave the file state unchanged; any batch without
`import_errors` leaves the file state unchanged. -/
theorem C3_api_errors_skipped_no_mutation (reqs : Option (List Char))
    (errors : List LogError) (ai : LogError → AiResult) :
    ((∀ e ∈ errors, e.etype.getD "unknown" ≠ "import_errors" ∧
        e.etype.getD "unknown" ≠ "api_errors" ∧
        e.etype.getD "unknown" ≠ "attribute_errors") →
      repair_log_issues reqs errors ai = (reqs, []))
  ∧ ((∀ e ∈ errors, e.etype.getD "unknown" ≠ "import_errors") →
      (repair_log_issues reqs errors ai).1 = reqs)
  ∧ (∀ e, e.etype.getD "unknown" = "api_errors" →
      repair_log_issues reqs [e] ai = (reqs, [repair_api_error]))
  ∧ repair_api_error.status = "skipped"
  ∧ repair_api_error.recommendation = some "Check API key and network connectivity" := by
  refine ⟨?_, ?_, ?_, rfl, rfl⟩
  · intro h
    exact foldl_repairLogStep_skip ai (errors.take 5)
      (fun e he => h e (List.take_subset 5 errors he)) (reqs, [])
  · intro h
    exact foldl_repairLogStep_fst ai (errors.take 5)
      (fun e he => h e (List.take_subset 5 errors he)) (reqs, [])
  · intro e he
    show (List.take 5 [e]).foldl (repairLogStep ai) (reqs, []) = _
    rw [show List.take 5 [e] = [e] from rfl, List.foldl_cons, List.foldl_nil]
    simp only [repairLogStep]
    rw [if_neg (by rw [he]; decide), if_pos he]
    rfl

/-- Witness for C3: an unknown-typed error batch produces no repair and
no mutation; a single api_errors error produces exactly the skip
outcome. -/
theorem C3_api_errors_skipped_no_mutation_witness :
    repair_log_issues (some ("requests\n".data)) [⟨some "type_errors", none⟩]
        (fun _ => AiResult.raise) = (some ("requests\n".data), [])
  ∧ repair_log_issues (some ("requests\n".data)) [⟨some "api_errors", some "x"⟩]
        (fun _ => AiResult.raise) = (some ("requests\n".data), [repair_api_error]) := by
  constructor
  · exact (C3_api_errors_skipped_no_mutation (some ("requests\n".data))
      [⟨some "type_errors", none⟩] (fun _ => AiResult.raise)).1 (by decide)
  · exact (C3_api_errors_skipped_no_mutation (some ("requests\n".data))
      [⟨some "api_errors", some "x"⟩] (fun _ => AiResult.raise)).2.2.1
      ⟨some "api_errors", some "x"⟩ (by decide)

/-- C9 counterexample: with requirements.txt missing, the import-error
repair records NO field-level error -- `_add_to_requirements` silently
does nothing and the outcome claims `success` ("Added requests to
requirements.txt") with its `error` field absent. -/
theorem C9_counterexample_missing_manifest :
    repair_import_error none
        ⟨some "import_errors",
         some "ModuleNotFoundError: No module named \x27requests\x27"⟩
      = (none, { rtype := "import_error", status := "success",
                 action := some "Added requests to requirements.txt" })
  ∧ (repair_import_error none
        ⟨some "import_errors",
         some "ModuleNotFoundError: No module named \x27requests\x27"⟩).2.error
      = none := by
  refine ⟨by decide, by decide⟩

/-- C9 amended: when the dependency manifest is missing at import-error
repair time, no exception reaches the caller, but no field-level error
is recorded either: `_add_to_requirements` silently no-ops and the
repair reports status `success` with the "Added ... to requirements.txt"
action, the manifest staying absent. -/
theorem C9_missing_manifest_amended (e : LogError) (m : List Char)
    (h : search_module_name ((e.eline.getD "").data) = some m) :
    repair_import_error none e
      = (none, { rtype := "import_error", status := "success",
                 action := some ("Added " ++ String.mk m ++ " to requirements.txt") })
  ∧ (repair_import_error none e).2.error = none := by
  unfold repair_import_error
  rw [h]
  exact ⟨rfl, rfl⟩

/-- Witness for C9's amended statement at a concrete error line. -/
theorem C9_missing_manifest_amended_witness :
    repair_import_error none ⟨some "import_errors", some "No module named \x27foo\x27"⟩
      = (none, { rtype := "import_error", status := "success",
                 action := some ("Added " ++ String.mk ("foo".data) ++
                   " to requirements.txt") })
  ∧ (repair_import_error none
      ⟨some "import_errors", some "No module named \x27foo\x27"⟩).2.error = none :=
  C9_missing_manifest_amended ⟨some "import_errors", some "No module named \x27foo\x27"⟩
    ("foo".data) (by decide)

/-! ### C5: idempotence of the bare-except rewrite -/

lemma subBEGo_nil : ∀ f, subBEGo f [] = [] := by
  intro f
  cases f with
  | zero => rfl
  | succ n => rfl

lemma afterWs_some_length (s r : List Char) (h : afterWs s = some r) :
    r.length < s.length := by
  induction s generalizing r with
  | nil => cases h
  | cons c t ih =>
    simp only [afterWs] at h
    by_cases hc : c = ':'
    · rw [if_pos hc] at h
      cases h
      simp
    · rw [if_neg hc] at h
      by_cases hsp : isPySpace c = true
      · rw [if_pos hsp] at h
        exact Nat.lt_trans (ih r h) (by simp)
      · rw [if_neg hsp] at h
        cases h

lemma matchPat_some_length :
    ∀ (ps s r : List Char), matchPat ps s = some r → r.length < s.length := by
  intro ps
  induction ps with
  | nil =>
    intro s r h
    exact afterWs_some_length s r h
  | cons p ps ih =>
    intro s r h
    cases s with
    | nil => cases h
    | cons c cs =>
      simp only [matchPat] at h
      by_cases hc : c = p
      · rw [if_pos hc] at h
        exact Nat.lt_trans (ih cs r h) (by simp)
      · rw [if_neg hc] at h
        cases h

lemma tryBareMatch_some_length (s r : List Char) (h : tryBareMatch s = some r) :
    r.length < s.length :=
  matchPat_some_length exceptPat s r h

lemma subBEGo_fuel :
    ∀ (f1 f2 : Nat) (s : List Char), s.length ≤ f1 → s.length ≤ f2 →
      subBEGo f1 s = subBEGo f2 s := by
  intro f1
  induction f1 with
  | zero =>
    intro f2 s h1 _
    have hs : s = [] := List.eq_nil_of_length_eq_zero (Nat.le_zero.mp h1)
    subst hs
    rw [subBEGo_nil, subBEGo_nil]
  | succ n ih =>
    intro f2 s h1 h2
    cases f2 with
    | zero =>
      have hs : s = [] := List.eq_nil_of_length_eq_zero (Nat.le_zero.mp h2)
      subst hs
      rw [subBEGo_nil, subBEGo_nil]
    | succ m =>
      cases s with
      | nil => rw [subBEGo_nil, subBEGo_nil]
      | cons c cs =>
        cases htm : tryBareMatch (c :: cs) with
        | some rest =>
          have hr := tryBareMatch_some_length _ _ htm
          simp only [List.length_cons] at h1 h2 hr
          simp only [subBEGo, htm]
          rw [ih m rest (by omega) (by omega)]
        | none =>
          simp only [List.length_cons] at h1 h2
          simp only [subBEGo, htm]
          rw [ih m cs (by omega) (by omega)]

lemma subBE_nil : subBE [] = [] := rfl

lemma subBE_match (s rest : List Char) (h : tryBareMatch s = some rest) :
    subBE s = replExc ++ subBE rest := by
  cases s with
  | nil => cases h
  | cons c cs =>
    have hr := tryBareMatch_some_length _ _ h
    simp only [List.length_cons] at hr
    unfold subBE
    simp only [List.length_cons, subBEGo, h]
    rw [subBEGo_fuel cs.length rest.length rest (by omega) (le_refl _)]

lemma subBE_nomatch (c : Char) (cs : List Char)
    (h : tryBareMatch (c :: cs) = none) :
    subBE (c :: cs) = c :: subBE cs := by
  unfold subBE
  simp only [List.length_cons, subBEGo, h]

lemma suffix_exceptPat_cases (ps : List Char) (h : ps <:+ exceptPat) :
    ps = exceptPat ∨ ps = ['x', 'c', 'e', 'p', 't'] ∨ ps = ['c', 'e', 'p', 't'] ∨
    ps = ['e', 'p', 't'] ∨ ps = ['p', 't'] ∨ ps = ['t'] ∨ ps = ([] : List Char) := by
  have hm : ps ∈ List.tails exceptPat := (List.mem_tails ps exceptPat).mpr h
  rw [show List.tails exceptPat =
    [['e', 'x', 'c', 'e', 'p', 't'], ['x', 'c', 'e', 'p', 't'], ['c', 'e', 'p', 't'],
     ['e', 'p', 't'], ['p', 't'], ['t'], []] from rfl] at hm
  simpa [exceptPat] using hm

lemma matchPat_replExc (ps : List Char) (hps : ps <:+ exceptPat) (X : List Char) :
    matchPat ps (replExc ++ X) = none := by
  rcases suffix_exceptPat_cases ps hps with rfl | rfl | rfl | rfl | rfl | rfl | rfl
  · rfl
  · rfl
  · rfl
  · rfl
  · rfl
  · rfl
  · rfl

lemma replExc_suffix_clean (suf : List Char) (hs : suf <:+ replExc)
    (hne : suf ≠ []) (X : List Char) : tryBareMatch (suf ++ X) = none := by
  have hm : suf ∈ List.tails replExc := (List.mem_tails suf replExc).mpr hs
  rw [show List.tails replExc =
    ["except Exception:".data, "xcept Exception:".data, "cept Exception:".data,
     "ept Exception:".data, "pt Exception:".data, "t Exception:".data,
     " Exception:".data, "Exception:".data, "xception:".data, "ception:".data,
     "eption:".data, "ption:".data, "tion:".data, "ion:".data, "on:".data,
     "n:".data, ":".data, []] from rfl] at hm
  simp only [List.mem_cons, List.not_mem_nil, or_false] at hm
  rcases hm with rfl | rfl | rfl | rfl | rfl | rfl | rfl | rfl | rfl | rfl | rfl |
    rfl | rfl | rfl | rfl | rfl | rfl | rfl <;>
    first
    | rfl
    | exact absurd rfl hne

lemma subBE_append_clean :
    ∀ (pre : List Char),
      (∀ suf, suf <:+ pre → suf ≠ [] → ∀ X, tryBareMatch (suf ++ X) = none) →
      ∀ X, subBE (pre ++ X) = pre ++ subBE X := by
  intro pre
  induction pre with
  | nil => intro _ X; simp
  | cons c pre ih =>
    intro h X
    have hhead : tryBareMatch ((c :: pre) ++ X) = none :=
      h (c :: pre) (List.suffix_refl _) (by simp) X
    rw [List.cons_append] at hhead ⊢
    rw [subBE_nomatch c (pre ++ X) hhead]
    rw [ih (fun suf hsuf hne X2 => h suf (hsuf.trans (List.suffix_cons c pre)) hne X2) X]
    simp

lemma subBE_replExc_append (X : List Char) :
    subBE (replExc ++ X) = replExc ++ subBE X :=
  subBE_append_clean replExc (fun suf hs hne X2 => replExc_suffix_clean suf hs hne X2) X

lemma matchPat_none_subBE :
    ∀ (n : Nat) (s : List Char), s.length ≤ n →
      ∀ ps, ps <:+ exceptPat → matchPat ps s = none →
        matchPat ps (subBE s) = none := by
  intro n
  induction n with
  | zero =>
    intro s hl ps _ h
    have hs : s = [] := List.eq_nil_of_length_eq_zero (Nat.le_zero.mp hl)
    subst hs
    rw [subBE_nil]
    exact h
  | succ n ih =>
    intro s hl ps hps h
    cases s with
    | nil => rw [subBE_nil]; exact h
    | cons c cs =>
      simp only [List.length_cons] at hl
      cases htm : tryBareMatch (c :: cs) with
      | some rest =>
        rw [subBE_match _ _ htm]
        exact matchPat_replExc ps hps _
      | none =>
        rw [subBE_nomatch c cs htm]
        cases ps with
        | nil =>
          simp only [matchPat, afterWs] at h ⊢
          by_cases hc : c = ':'
          · rw [if_pos hc] at h
            cases h
          · rw [if_neg hc] at h ⊢
            by_cases hsp : isPySpace c = true
            · rw [if_pos hsp] at h ⊢
              have := ih cs (by omega) [] (List.nil_suffix) h
              simpa [matchPat] using this
            · rw [if_neg hsp] at h ⊢
        | cons p ps' =>
          simp only [matchPat] at h ⊢
          by_cases hcp : c = p
          · rw [if_pos hcp] at h ⊢
            have hps' : ps' <:+ exceptPat := (List.suffix_cons p ps').trans hps
            exact ih cs (by omega) ps' hps' h
          · rw [if_neg hcp] at h ⊢

/-- Applying the rewrite `re.sub(r'except\s*:', 'except Exception:', ·)`
twice gives the same text as applying it once. -/
theorem subBE_idempotent : ∀ s, subBE (subBE s) = subBE s := by
  suffices H : ∀ n s, s.length ≤ n → subBE (subBE s) = subBE s by
    intro s
    exact H s.length s (le_refl _)
  intro n
  induction n with
  | zero =>
    intro s hl
    have hs : s = [] := List.eq_nil_of_length_eq_zero (Nat.le_zero.mp hl)
    subst hs
    rfl
  | succ n ih =>
    intro s hl
    cases htm : tryBareMatch s with
    | some rest =>
      have hr := tryBareMatch_some_length _ _ htm
      rw [subBE_match _ _ htm, subBE_replExc_append,
        ih rest (by omega)]
    | none =>
      cases s with
      | nil => rfl
      | cons c cs =>
        simp only [List.length_cons] at hl
        rw [subBE_nomatch c cs htm]
        have hnm : tryBareMatch (c :: subBE cs) = none := by
          have h2 := matchPat_none_subBE (cs.length + 1) (c :: cs) (by simp)
            exceptPat (List.suffix_refl _) htm
          rwa [subBE_nomatch c cs htm] at h2
        rw [subBE_nomatch c (subBE cs) hnm, ih cs (by omega)]

/-- C5: the bare-except rewrite is idempotent on every file content, and
a second `_fix_bare_except` run on a file already processed (whatever
the first run did) finds nothing to change: it writes nothing and
reports `skipped` with reason "No changes needed". -/
theorem C5_bare_except_rewrite_idempotent (content : List Char)
    (fp bp fp2 bp2 : String) (w2 : WriteOutcome) :
    subBE (subBE content) = subBE content
  ∧ fix_bare_except fp2 (fix_bare_except fp content bp WriteOutcome.ok).1 bp2 w2
      = ((fix_bare_except fp content bp WriteOutcome.ok).1,
         Except.ok { rtype := "bare_except", status := "skipped",
                     reason := some "No changes needed" }) := by
  refine ⟨subBE_idempotent content, ?_⟩
  by_cases h : subBE content ≠ content
  · have h1 : (fix_bare_except fp content bp WriteOutcome.ok).1 = subBE content := by
      simp only [fix_bare_except]
      rw [if_pos h]
    rw [h1]
    simp only [fix_bare_except]
    rw [if_neg (not_not.mpr (subBE_idempotent content))]
  · push_neg at h
    have h1 : (fix_bare_except fp content bp WriteOutcome.ok).1 = content := by
      simp only [fix_bare_except]
      rw [if_neg (not_not.mpr h)]
    rw [h1]
    simp only [fix_bare_except]
    rw [if_neg (not_not.mpr h)]

end MerakiAgents
